import Mathlib

/-!
Verification of the syslog binding cache core of loggregator-agent-release.

The Go sources embedded here:
- `src/pkg/binding/poller.go` — data model (`Binding`, `Drain`, `TLSCredential`,
  `BindingsMap`), the `MergeBindings` function, and the two poll cycles
  (`pollBindings`, `pollMtlsBindings`).
- `src/pkg/binding/store.go` — the `Store` (two input maps plus the published
  snapshot) and the `AggregateStore`.
- `src/pkg/ingress/api/client.go` — the provider HTTP client (URL construction,
  no status-code inspection).
- `src/pkg/ingress/bindings/aggregate_fetcher.go` — the aggregate drain fetcher
  and `parseBindings` drain classification.

Go maps are embedded as association lists (`List (String × Binding)`); map
assignment `m[k] = v` becomes `mapInsert`, which replaces the entry for an
existing key and appends otherwise, and map iteration becomes a fold over the
list.  Go `nil` slices/maps are embedded as `Option` where nil-ness is
observable (the `Store`).  Fallible HTTP calls are embedded as values of
`FetchResult`/`Except`.
-/

/-- `TLSCredential` from poller.go: two strings `Cert`, `Key`. -/
structure TLSCredential where
  cert : String
  key : String
deriving Repr, DecidableEq

/-- `Drain` from poller.go: a URL and its (possibly empty) TLS credential. -/
structure Drain where
  url : String
  tlsCredential : TLSCredential
deriving Repr, DecidableEq

/-- `Binding` from poller.go: `AppID`, `Drains`, `Hostname`. -/
structure Binding where
  appID : String
  drains : List Drain
  hostname : String
deriving Repr, DecidableEq

/-- `BindingsMap` from poller.go (`map[string]Binding`), embedded as an
association list; a well-formed map has `Nodup` keys. -/
abbrev BindingsMap := List (String × Binding)

/-- The keys of a `BindingsMap` (Go: the set of map keys, here in list order). -/
def mapKeys (m : BindingsMap) : List String := m.map Prod.fst

/-- Go map read `v, found := m[k]`: the value at the first entry with key `k`. -/
def mapLookup (m : BindingsMap) (k : String) : Option Binding :=
  (m.find? (fun p => p.1 = k)).map Prod.snd

/-- Go map assignment `m[k] = v`: replace the entry holding `k`, or add one. -/
def mapInsert : BindingsMap → String → Binding → BindingsMap
  | [], k, v => [(k, v)]
  | p :: rest, k, v => if p.1 = k then (k, v) :: rest else p :: mapInsert rest k v

/-- One iteration shape shared by both `range` loops of `MergeBindings`:
insert `g k v` for every entry `(k, v)` of `m` into the accumulator map. -/
def foldInsert (g : String → Binding → Binding) (acc : BindingsMap) (m : BindingsMap) : BindingsMap :=
  m.foldl (fun a kv => mapInsert a kv.1 (g kv.1 kv.2)) acc

/-- The body of the second `range` loop of `MergeBindings` (poller.go:187-198):
if the key is also in `nonMtlsBindings`, build a merged `Binding` whose drains
are the mTLS drains followed by the non-mTLS drains and whose hostname comes
from the mTLS entry; otherwise keep the mTLS binding as-is. -/
def mergeEntry (nonMtlsBindings : BindingsMap) (k : String) (v : Binding) : Binding :=
  match mapLookup nonMtlsBindings k with
  | some nonMtlsBinding => ⟨k, v.drains ++ nonMtlsBinding.drains, v.hostname⟩
  | none => v

/-- `MergeBindings` from poller.go:180-203: copy `nonMtlsBindings` into a fresh
map, fold the mTLS entries over it with `mergeEntry`, and emit the values. -/
def MergeBindings (nonMtlsBindings mtlsBindings : BindingsMap) : List Binding :=
  let bindings := foldInsert (fun _ v => v) [] nonMtlsBindings
  let bindings := foldInsert (mergeEntry nonMtlsBindings) bindings mtlsBindings
  bindings.map Prod.snd

/-! ### Store (store.go)

Go `nil` slices and maps are observable here (`Get` must never return nil,
`SetNonMtls(nil)` substitutes an empty map), so the three fields are embedded
as `Option`: `none` is Go `nil`, `some l` a non-nil slice/map with contents
`l`. -/

/-- The `Store` of store.go: the two input maps and the published snapshot. -/
structure Store where
  bindings : Option (List Binding)
  nonMtlsBindings : Option BindingsMap
  mtlsBindings : Option BindingsMap
deriving Repr, DecidableEq

/-- `NewStore` (store.go:17-27): all three fields start as non-nil empties. -/
def NewStore : Store :=
  { bindings := some [], nonMtlsBindings := some [], mtlsBindings := some [] }

/-- `Store.Get` (store.go:29-33): returns the published snapshot field. -/
def Store.get (s : Store) : Option (List Binding) := s.bindings

/-- `Store.SetNonMtls` (store.go:43-51): a nil argument is replaced by an
empty map before assignment. -/
def Store.setNonMtls (s : Store) (bindings : Option BindingsMap) : Store :=
  let bindings := match bindings with
    | none => some []
    | some b => some b
  { s with nonMtlsBindings := bindings }

/-- `Store.SetMtls` (store.go:53-61): symmetric to `setNonMtls`. -/
def Store.setMtls (s : Store) (bindings : Option BindingsMap) : Store :=
  let bindings := match bindings with
    | none => some []
    | some b => some b
  { s with mtlsBindings := bindings }

/-- `Store.Merge` (store.go:35-41) as the Poller invokes it
(`store.Merge(MergeBindings)`, poller.go:77 and poller.go:107): recompute the
published snapshot from the two input maps.  Ranging over a Go nil map visits
nothing and reading from it finds nothing, hence `getD []`. -/
def Store.merge (s : Store) : Store :=
  let merged := MergeBindings (s.nonMtlsBindings.getD []) (s.mtlsBindings.getD [])
  { s with bindings := some merged }

/-- A writer call on the Store; `Get` is read-only and omitted. -/
inductive StoreOp
  | setNonMtls (m : Option BindingsMap)
  | setMtls (m : Option BindingsMap)
  | merge
deriving Repr

/-- Apply one writer call. -/
def Store.applyOp (s : Store) : StoreOp → Store
  | .setNonMtls m => s.setNonMtls m
  | .setMtls m => s.setMtls m
  | .merge => s.merge

/-- Apply a (serialized) sequence of writer calls. -/
def Store.runOps (s : Store) (ops : List StoreOp) : Store :=
  ops.foldl Store.applyOp s

/-- `AggregateStore` (store.go:63-65). -/
structure AggregateStore where
  aggregateDrains : List String
deriving Repr, DecidableEq

/-- `AggregateStore.Get` (store.go:67-80): always a single `Binding` with empty
`AppID`, one `Drain` (empty credential) per configured URL, in order. -/
def AggregateStore.get (store : AggregateStore) : List Binding :=
  [{ appID := "",
     drains := store.aggregateDrains.map (fun d => { url := d, tlsCredential := ⟨"", ""⟩ }),
     hostname := "" }]

/-! ### Poller (poller.go)

The Go code's only uses of an `*http.Response` from the provider are (a) the
error of the call itself and (b) `json.Decode` of the body, so a provider call
is embedded as a `FetchResult`: a transport error, a body that fails to
decode, or the decoded value. -/

/-- Outcome of one provider call as the Poller observes it. -/
inductive FetchResult (α : Type)
  | transportErr
  | decodeErr
  | ok (a : α)
deriving Repr, DecidableEq

/-- One entry of `Results` in `apiResponse` (poller.go:210-213). -/
structure UrlResult where
  drains : List String
  hostname : String
deriving Repr, DecidableEq

/-- `apiResponse` (poller.go:205-208): paginated drain-URL results. -/
structure ApiResponse where
  results : List (String × UrlResult)
  nextID : Int
deriving Repr, DecidableEq

/-- `certApiResponse` (poller.go:215-217). -/
structure CertApiResponse where
  bindings : BindingsMap
deriving Repr, DecidableEq

/-- Which kind of error aborted a poll cycle. -/
inductive PollErr
  | transport
  | decode
deriving Repr, DecidableEq

/-- The Poller-visible mutable state: the Store plus the metrics the Poller
writes (`binding_refresh_error` counter, the two refresh-count gauges). -/
structure PollerState where
  store : Store
  errorCount : Nat
  lastBindingCount : Nat
  lastMtlsBindingCount : Nat
deriving Repr, DecidableEq

/-- `Poller.toResults` (poller.go:163-178): fold one page of results into the
accumulated map; each listed URL becomes a `Drain` with empty credential. -/
def toResults (bindings : BindingsMap) (aResp : ApiResponse) : BindingsMap :=
  aResp.results.foldl
    (fun acc kv =>
      mapInsert acc kv.1
        { appID := kv.1,
          drains := kv.2.drains.map (fun d => { url := d, tlsCredential := ⟨"", ""⟩ }),
          hostname := kv.2.hostname })
    bindings

/-- The pagination loop of `pollBindings` (poller.go:114-135).  `getUrls` maps
a cursor to that call's outcome; `fuel` bounds the number of pages so the
function is total (`none` = fuel exhausted, which no finite Go execution
hits).  The loop stops at the first error or when `next_id == 0`. -/
def pollBindingsLoop (getUrls : Int → FetchResult ApiResponse) :
    Nat → Int → BindingsMap → Option (FetchResult BindingsMap)
  | 0, _, _ => none
  | Nat.succ fuel, nextID, bindings =>
    match getUrls nextID with
    | .transportErr => some .transportErr
    | .decodeErr => some .decodeErr
    | .ok aResp =>
      let bindings := toResults bindings aResp
      if aResp.nextID = 0 then some (.ok bindings)
      else pollBindingsLoop getUrls fuel aResp.nextID bindings

/-- `Poller.pollBindings` (poller.go:111-141), with its state effects: a
transport error increments the error counter and aborts (poller.go:116-120); a
decode error aborts with no counter change (poller.go:123-126); success sets
the `last_binding_refresh_count` gauge and calls `SetNonMtls`
(poller.go:137-138). -/
def pollBindings (getUrls : Int → FetchResult ApiResponse) (fuel : Nat)
    (s : PollerState) : Option (PollerState × Option PollErr) :=
  match pollBindingsLoop getUrls fuel 0 [] with
  | none => none
  | some .transportErr => some ({ s with errorCount := s.errorCount + 1 }, some .transport)
  | some .decodeErr => some (s, some .decode)
  | some (.ok bindings) =>
    some ({ s with
              lastBindingCount := bindings.length,
              store := s.store.setNonMtls (some bindings) },
          none)

/-- `Poller.pollMtlsBindings` (poller.go:143-161), exactly as written: the
local `bindings` map is created empty (poller.go:144) and never filled from
the decoded response — on success the code sets the gauge from, and passes to
`SetMtls`, this still-empty map, discarding `aResp.Bindings`. -/
def pollMtlsBindings (getCerts : FetchResult CertApiResponse)
    (s : PollerState) : PollerState × Option PollErr :=
  let bindings : BindingsMap := []
  match getCerts with
  | .transportErr => ({ s with errorCount := s.errorCount + 1 }, some .transport)
  | .decodeErr => (s, some .decode)
  | .ok _aResp =>
    ({ s with
         lastMtlsBindingCount := bindings.length,
         store := s.store.setMtls (some bindings) },
     none)

/-! ### Provider HTTP client (client.go / the api `Client` with `GetUrls`/`GetCerts`)

`fmt.Sprintf` restricted to the `%s`/`%d` verbs these templates use: each verb
consumes the next argument (already rendered to a string; Go's `%d` renders an
int in decimal, matching `toString` on `Int`).  `http.Client.Get` is embedded
as an abstract getter `String → Except String HTTPResponse`; Go's `Get`
returns an error only for transport-level failures, never because of the
response's status code. -/

/-- An HTTP response as far as this code inspects it. -/
structure HTTPResponse where
  statusCode : Nat
  body : String
deriving Repr, DecidableEq

/-- `fmt.Sprintf` verb substitution over the format's characters. -/
def goSprintfAux : List Char → List String → List Char
  | [], _ => []
  | '%' :: 's' :: rest, arg :: args => arg.data ++ goSprintfAux rest args
  | '%' :: 'd' :: rest, arg :: args => arg.data ++ goSprintfAux rest args
  | c :: rest, args => c :: goSprintfAux rest args

/-- `fmt.Sprintf(fmt, args...)` for `%s`/`%d`-only formats. -/
def goSprintf (fmt : String) (args : List String) : String :=
  ⟨goSprintfAux fmt.data args⟩

/-- `sDUrlsPathTemplate` from the api client. -/
def sDUrlsPathTemplate : String := "%s/internal/v4/syslog_drain_urls?batch_size=%d&next_id=%d"

/-- `sDCertspathTemplate` from the api client. -/
def sDCertspathTemplate : String := "%s/internal/v4/syslog_drain_certs?updated_since=%s"

/-- The api `Client` struct: the underlying `http.Client`'s `Get`, the
provider address, and the configured batch size. -/
structure ApiClient where
  get : String → Except String HTTPResponse
  addr : String
  batchSize : Int

/-- The URL `GetUrls` requests (the `fmt.Sprintf` call inside it). -/
def ApiClient.getUrlsUrl (w : ApiClient) (nextID : Int) : String :=
  goSprintf sDUrlsPathTemplate [w.addr, toString w.batchSize, toString nextID]

/-- `Client.GetUrls`: one GET of the formatted drain-URLs path; the response
is returned exactly as the transport produced it. -/
def ApiClient.GetUrls (w : ApiClient) (nextID : Int) : Except String HTTPResponse :=
  w.get (w.getUrlsUrl nextID)

/-- The URL `GetCerts` requests; `updatedSince` stands for
`updatedSince.Format(time.RFC3339)`. -/
def ApiClient.getCertsUrl (w : ApiClient) (updatedSince : String) : String :=
  goSprintf sDCertspathTemplate [w.addr, updatedSince]

/-- `Client.GetCerts`: one GET of the formatted certs path; the response is
returned exactly as the transport produced it. -/
def ApiClient.GetCerts (w : ApiClient) (updatedSince : String) : Except String HTTPResponse :=
  w.get (w.getCertsUrl updatedSince)

/-- Whether a status code is a 2xx success. -/
def is2xx (status : Nat) : Bool := 200 ≤ status && status ≤ 299

/-! ### Aggregate drain fetcher (aggregate_fetcher.go)

The egress-facing `syslog.Binding`, `syslog.Drain` and the `BINDING_TYPE_*`
constants are declared in the syslog package, which is not under src/. -/

/-- Modelled from the spec: §3's drain-type classification
`{LOG, METRIC, ALL, AGGREGATE}` (the syslog package's `BINDING_TYPE_*`
constants are not under src/); `BINDING_TYPE_LOG` is the first constant, so it
is the Go zero value of the type, matching §4.F where an absent parameter
classifies as LOG. -/
inductive BindingType
  | LOG
  | METRIC
  | ALL
  | AGGREGATE
deriving Repr, DecidableEq

/-- Modelled from the spec: §3 SyslogBinding `{appId, hostname, drain, type}`
(the syslog package's `Binding`/`Drain` declarations are not under src/; the
drain is its URL plus credential, reusing `Drain`). -/
structure SyslogBinding where
  appId : String
  hostname : String
  drain : Drain
  type : BindingType
deriving Repr, DecidableEq

/-- The Go zero value of `syslog.Binding`: empty strings, empty drain, and the
enum's first constant `BINDING_TYPE_LOG`. -/
def SyslogBinding.zero : SyslogBinding :=
  { appId := "", hostname := "", drain := ⟨"", ⟨"", ""⟩⟩, type := .LOG }

/-- The characters after the first occurrence of `c` (empty if none). -/
def afterFirst (c : Char) : List Char → List Char
  | [] => []
  | x :: xs => if x = c then xs else afterFirst c xs

/-- The characters before the first occurrence of `c` (all if none). -/
def beforeFirst (c : Char) : List Char → List Char
  | [] => []
  | x :: xs => if x = c then [] else x :: beforeFirst c xs

/-- Split a character list at every occurrence of `c`. -/
def splitAtChar (c : Char) : List Char → List Char → List (List Char)
  | [], acc => [acc.reverse]
  | x :: xs, acc =>
    if x = c then acc.reverse :: splitAtChar c xs []
    else splitAtChar c xs (x :: acc)

/-- Modelled from the spec: `url.Parse(b).Query().Get(key)` (net/url is not
under src/) — the query string is everything after the first `?`; parameters
are separated by `&`, each split at its first `=`; `Get` returns the first
value for the key, or `""` when absent.  Simplified: no percent-decoding, and
parsing never fails (the URLs used in the theorems below contain no escapes,
where this model agrees with net/url). -/
def queryGet (u : String) (key : String) : String :=
  let pairs := splitAtChar '&' (afterFirst '?' u.data) []
  match pairs.find? (fun p => beforeFirst '=' p = key.data) with
  | some p => ⟨afterFirst '=' p⟩
  | none => ""

/-- `parseBindings` (aggregate_fetcher.go:44-66): skip empty URLs; classify as
AGGREGATE exactly when `include-metrics-deprecated` has a non-empty value,
else the default `BINDING_TYPE_LOG`. -/
def parseBindings (urls : List String) : List SyslogBinding :=
  urls.filterMap (fun b =>
    if b = "" then none
    else
      some { appId := "",
             hostname := "",
             drain := ⟨b, ⟨"", ""⟩⟩,
             type := if queryGet b "include-metrics-deprecated" = ""
                     then BindingType.LOG else BindingType.AGGREGATE })

/-- `AggregateDrainFetcher` (aggregate_fetcher.go:13-16): the statically
configured URLs and the optional cache fetcher, the latter embedded as the
outcome its `GetAggregate()` call would produce (`none` = `cf == nil`). -/
structure AggregateDrainFetcher where
  bindings : List String
  cf : Option (Except String (List String))

/-- `AggregateDrainFetcher.FetchBindings` (aggregate_fetcher.go:24-42).  With
static URLs configured it builds `syslog.Binding{Drain: syslog.Drain{Url: b}}`
per URL — every other field keeps its Go zero value, so `Type` is
`BINDING_TYPE_LOG` whatever the URL's query says.  Otherwise it classifies the
cache fetcher's URLs with `parseBindings`. -/
def AggregateDrainFetcher.fetchBindings (a : AggregateDrainFetcher) :
    Except String (List SyslogBinding) :=
  if a.bindings.length ≠ 0 then
    .ok (a.bindings.map (fun binding => { SyslogBinding.zero with drain := ⟨binding, ⟨"", ""⟩⟩ }))
  else
    match a.cf with
    | some fetched =>
      match fetched with
      | .error e => .error e
      | .ok aggregate => .ok (parseBindings aggregate)
    | none => .ok []

/-- `AggregateDrainFetcher.DrainLimit` (aggregate_fetcher.go:68-70). -/
def AggregateDrainFetcher.drainLimit (_ : AggregateDrainFetcher) : Int := -1

section MapLemmas

theorem mapLookup_nil (k : String) : mapLookup [] k = none := rfl

theorem mapLookup_cons (p : String × Binding) (m : BindingsMap) (k : String) :
    mapLookup (p :: m) k = if p.1 = k then some p.2 else mapLookup m k := by
  by_cases h : p.1 = k <;> simp [mapLookup, List.find?, h]

theorem mapLookup_mapInsert_self (m : BindingsMap) (k : String) (v : Binding) :
    mapLookup (mapInsert m k v) k = some v := by
  induction m with
  | nil => simp [mapInsert, mapLookup_cons]
  | cons p rest ih =>
    by_cases h : p.1 = k
    · simp [mapInsert, h, mapLookup_cons]
    · simp [mapInsert, h, mapLookup_cons, ih]

theorem mapLookup_mapInsert_ne (m : BindingsMap) (k' k : String) (v : Binding)
    (h : k' ≠ k) : mapLookup (mapInsert m k' v) k = mapLookup m k := by
  induction m with
  | nil => simp [mapInsert, mapLookup_cons, mapLookup_nil, h]
  | cons p rest ih =>
    by_cases hp : p.1 = k'
    · subst hp
      simp [mapInsert, mapLookup_cons, h]
    · simp [mapInsert, hp, mapLookup_cons, ih]

theorem mapKeys_mapInsert (m : BindingsMap) (k : String) (v : Binding) :
    mapKeys (mapInsert m k v) = if k ∈ mapKeys m then mapKeys m else mapKeys m ++ [k] := by
  induction m with
  | nil => simp [mapInsert, mapKeys]
  | cons p rest ih =>
    by_cases hp : p.1 = k
    · subst hp
      simp [mapInsert, mapKeys]
    · have : ¬ k = p.1 := fun h => hp h.symm
      simp [mapInsert, hp, mapKeys, this] at ih ⊢
      rw [ih]
      by_cases hk : k ∈ List.map Prod.fst rest <;> simp [hk, this]

theorem mem_mapKeys_mapInsert (m : BindingsMap) (k k' : String) (v : Binding) :
    k' ∈ mapKeys (mapInsert m k v) ↔ k' ∈ mapKeys m ∨ k' = k := by
  rw [mapKeys_mapInsert]
  by_cases hk : k ∈ mapKeys m
  · rw [if_pos hk]
    exact ⟨Or.inl, fun h => h.elim id (fun he => he ▸ hk)⟩
  · simp [hk]

theorem nodup_mapKeys_mapInsert (m : BindingsMap) (k : String) (v : Binding)
    (h : (mapKeys m).Nodup) : (mapKeys (mapInsert m k v)).Nodup := by
  rw [mapKeys_mapInsert]
  by_cases hk : k ∈ mapKeys m
  · simpa [hk] using h
  · simp only [hk, if_false]
    simpa [List.nodup_append] using ⟨h, hk⟩

theorem mem_of_mapLookup (m : BindingsMap) (k : String) (v : Binding)
    (h : mapLookup m k = some v) : (k, v) ∈ m := by
  induction m with
  | nil => simp [mapLookup] at h
  | cons p rest ih =>
    obtain ⟨k0, v0⟩ := p
    rw [mapLookup_cons] at h
    dsimp only at h
    by_cases hp : k0 = k
    · subst hp
      rw [if_pos rfl] at h
      cases h
      exact List.mem_cons_self _ _
    · rw [if_neg hp] at h
      exact List.mem_cons_of_mem _ (ih h)

theorem mapLookup_of_mem_nodup (m : BindingsMap) (k : String) (v : Binding)
    (hd : (mapKeys m).Nodup) (h : (k, v) ∈ m) : mapLookup m k = some v := by
  induction m with
  | nil => simp at h
  | cons p rest ih =>
    simp only [mapKeys, List.map_cons, List.nodup_cons] at hd
    rcases List.mem_cons.mp h with he | hm
    · subst he
      simp [mapLookup_cons]
    · have : p.1 ≠ k := by
        intro hpk
        exact hd.1 (by simpa [mapKeys, hpk] using List.mem_map_of_mem Prod.fst hm)
      rw [mapLookup_cons, if_neg this]
      exact ih hd.2 hm

theorem mapKeys_nil : mapKeys [] = [] := rfl

theorem mapKeys_cons (p : String × Binding) (m : BindingsMap) :
    mapKeys (p :: m) = p.1 :: mapKeys m := rfl

theorem mem_mapInsert_elim (m : BindingsMap) (k : String) (v : Binding)
    (kv : String × Binding) (h : kv ∈ mapInsert m k v) : kv = (k, v) ∨ kv ∈ m := by
  induction m with
  | nil => simpa [mapInsert] using h
  | cons p rest ih =>
    by_cases hp : p.1 = k
    · simp only [mapInsert, if_pos hp] at h
      rcases List.mem_cons.mp h with he | hm
      · exact Or.inl he
      · exact Or.inr (List.mem_cons_of_mem _ hm)
    · simp only [mapInsert, if_neg hp] at h
      rcases List.mem_cons.mp h with he | hm
      · exact Or.inr (he ▸ List.mem_cons_self _ _)
      · rcases ih hm with he | hm'
        · exact Or.inl he
        · exact Or.inr (List.mem_cons_of_mem _ hm')

theorem mapLookup_isSome_iff (m : BindingsMap) (k : String) :
    (mapLookup m k).isSome = true ↔ k ∈ mapKeys m := by
  induction m with
  | nil => simp [mapLookup, mapKeys]
  | cons p rest ih =>
    rw [mapLookup_cons]
    by_cases hp : p.1 = k
    · simp [hp, mapKeys]
    · have : ¬ k = p.1 := fun h => hp h.symm
      simp [hp, mapKeys, this] at ih ⊢
      exact ih

end MapLemmas

section FoldInsertLemmas

theorem foldInsert_nil (g : String → Binding → Binding) (acc : BindingsMap) :
    foldInsert g acc [] = acc := rfl

theorem foldInsert_cons (g : String → Binding → Binding) (acc : BindingsMap)
    (kv : String × Binding) (m : BindingsMap) :
    foldInsert g acc (kv :: m) = foldInsert g (mapInsert acc kv.1 (g kv.1 kv.2)) m := rfl

theorem mapLookup_foldInsert_of_not_mem (g : String → Binding → Binding)
    (m acc : BindingsMap) (k : String) (hk : k ∉ mapKeys m) :
    mapLookup (foldInsert g acc m) k = mapLookup acc k := by
  induction m generalizing acc with
  | nil => rfl
  | cons kv rest ih =>
    rw [mapKeys_cons] at hk
    rw [foldInsert_cons, ih _ (fun h => hk (List.mem_cons_of_mem _ h)),
      mapLookup_mapInsert_ne _ _ _ _
        (fun h => hk (by rw [h]; exact List.mem_cons_self _ _))]

theorem mapLookup_foldInsert_of_mem (g : String → Binding → Binding)
    (m acc : BindingsMap) (k : String) (v : Binding)
    (hd : (mapKeys m).Nodup) (hm : (k, v) ∈ m) :
    mapLookup (foldInsert g acc m) k = some (g k v) := by
  induction m generalizing acc with
  | nil => simp at hm
  | cons kv rest ih =>
    rw [mapKeys_cons, List.nodup_cons] at hd
    rw [foldInsert_cons]
    rcases List.mem_cons.mp hm with he | hmr
    · subst he
      have hk : k ∉ mapKeys rest := hd.1
      rw [mapLookup_foldInsert_of_not_mem _ _ _ _ hk]
      exact mapLookup_mapInsert_self _ _ _
    · exact ih _ hd.2 hmr

theorem mem_mapKeys_foldInsert (g : String → Binding → Binding)
    (m acc : BindingsMap) (k : String) :
    k ∈ mapKeys (foldInsert g acc m) ↔ k ∈ mapKeys acc ∨ k ∈ mapKeys m := by
  induction m generalizing acc with
  | nil => simp [foldInsert_nil, mapKeys_nil]
  | cons kv rest ih =>
    rw [foldInsert_cons, ih, mem_mapKeys_mapInsert, mapKeys_cons]
    simp only [List.mem_cons]
    tauto

theorem nodup_mapKeys_foldInsert (g : String → Binding → Binding)
    (m acc : BindingsMap) (h : (mapKeys acc).Nodup) :
    (mapKeys (foldInsert g acc m)).Nodup := by
  induction m generalizing acc with
  | nil => exact h
  | cons kv rest ih =>
    rw [foldInsert_cons]
    exact ih _ (nodup_mapKeys_mapInsert _ _ _ h)

theorem foldInsert_entry_pred (g : String → Binding → Binding)
    (m acc : BindingsMap) (P : String → Binding → Prop)
    (hacc : ∀ kv ∈ acc, P kv.1 kv.2) (hg : ∀ kv ∈ m, P kv.1 (g kv.1 kv.2)) :
    ∀ kv ∈ foldInsert g acc m, P kv.1 kv.2 := by
  induction m generalizing acc with
  | nil => exact hacc
  | cons kv0 rest ih =>
    rw [foldInsert_cons]
    refine ih _ ?_ (fun kv hkv => hg kv (List.mem_cons_of_mem _ hkv))
    intro kv hkv
    rcases mem_mapInsert_elim _ _ _ _ hkv with he | hm
    · subst he
      exact hg kv0 (List.mem_cons_self _ _)
    · exact hacc kv hm

end FoldInsertLemmas

section MergeBindingsTheorems

/-- Claim C4: for every pair of BindingsMaps `nonMtls` and `mtls` and every
appId present in both, `MergeBindings nonMtls mtls` contains a Binding for
that appId whose drains sequence is the mtls entry's drains followed by the
nonMtls entry's drains (mTLS first, internal order preserved) and whose
hostname is taken from the mtls entry. -/
theorem mergeBindings_overlap_merges_drains (nonMtls mtls : BindingsMap)
    (k : String) (bn bm : Binding)
    (hd : (mapKeys mtls).Nodup)
    (hn : mapLookup nonMtls k = some bn) (hm : mapLookup mtls k = some bm) :
    Binding.mk k (bm.drains ++ bn.drains) bm.hostname ∈ MergeBindings nonMtls mtls := by
  have hmem : (k, bm) ∈ mtls := mem_of_mapLookup _ _ _ hm
  have hl := mapLookup_foldInsert_of_mem (mergeEntry nonMtls) mtls
      (foldInsert (fun _ v => v) [] nonMtls) k bm hd hmem
  have hme : mergeEntry nonMtls k bm = Binding.mk k (bm.drains ++ bn.drains) bm.hostname := by
    simp [mergeEntry, hn]
  rw [hme] at hl
  exact List.mem_map_of_mem Prod.snd (mem_of_mapLookup _ _ _ hl)

theorem mergeBindings_overlap_merges_drains_witness :
    Binding.mk "app1" [⟨"mtls://a", ⟨"c", "k"⟩⟩, ⟨"syslog://a", ⟨"", ""⟩⟩] "h2" ∈
      MergeBindings [("app1", ⟨"app1", [⟨"syslog://a", ⟨"", ""⟩⟩], "h1"⟩)]
        [("app1", ⟨"app1", [⟨"mtls://a", ⟨"c", "k"⟩⟩], "h2"⟩)] :=
  mergeBindings_overlap_merges_drains
    [("app1", ⟨"app1", [⟨"syslog://a", ⟨"", ""⟩⟩], "h1"⟩)]
    [("app1", ⟨"app1", [⟨"mtls://a", ⟨"c", "k"⟩⟩], "h2"⟩)]
    "app1" ⟨"app1", [⟨"syslog://a", ⟨"", ""⟩⟩], "h1"⟩ ⟨"app1", [⟨"mtls://a", ⟨"c", "k"⟩⟩], "h2"⟩
    (by decide) rfl rfl

/-- Claim C5: for BindingsMaps keyed by app-id, the AppIDs of the Bindings
emitted by `MergeBindings A B` are exactly `keys A ∪ keys B` as a set, and
each appId appears exactly once (the emitted list of AppIDs has no
duplicates). -/
theorem mergeBindings_appIDs_union (A B : BindingsMap)
    (hA : ∀ kv ∈ A, kv.2.appID = kv.1) (hB : ∀ kv ∈ B, kv.2.appID = kv.1) :
    ((MergeBindings A B).map Binding.appID).Nodup ∧
    ∀ k, k ∈ (MergeBindings A B).map Binding.appID ↔ k ∈ mapKeys A ∨ k ∈ mapKeys B := by
  have hInner : ∀ kv ∈ foldInsert (fun _ v => v) [] A, kv.2.appID = kv.1 :=
    foldInsert_entry_pred (fun _ v => v) A [] (fun k v => v.appID = k)
      (fun kv hkv => absurd hkv (List.not_mem_nil kv)) hA
  have hOuter : ∀ kv ∈ B, (mergeEntry A kv.1 kv.2).appID = kv.1 := by
    intro kv hkv
    cases hl : mapLookup A kv.1 with
    | some nm => simp [mergeEntry, hl]
    | none =>
      simp only [mergeEntry, hl]
      exact hB kv hkv
  have hEntries : ∀ kv ∈ foldInsert (mergeEntry A) (foldInsert (fun _ v => v) [] A) B,
      kv.2.appID = kv.1 :=
    foldInsert_entry_pred (mergeEntry A) B (foldInsert (fun _ v => v) [] A)
      (fun k v => v.appID = k) hInner hOuter
  have hmapeq : (MergeBindings A B).map Binding.appID
      = mapKeys (foldInsert (mergeEntry A) (foldInsert (fun _ v => v) [] A) B) := by
    show ((foldInsert (mergeEntry A) (foldInsert (fun _ v => v) [] A) B).map
        Prod.snd).map Binding.appID = _
    rw [List.map_map]
    exact List.map_congr_left (fun kv hkv => hEntries kv hkv)
  constructor
  · rw [hmapeq]
    exact nodup_mapKeys_foldInsert _ _ _
      (nodup_mapKeys_foldInsert _ _ _ List.nodup_nil)
  · intro k
    rw [hmapeq, mem_mapKeys_foldInsert, mem_mapKeys_foldInsert]
    simp [mapKeys_nil]

theorem mergeBindings_appIDs_union_witness :
    ((MergeBindings
        [("app1", ⟨"app1", [⟨"syslog://a", ⟨"", ""⟩⟩], "h1"⟩)]
        [("app3", ⟨"app3", [⟨"mtls://c", ⟨"c2", "k2"⟩⟩], "h3"⟩)]).map Binding.appID).Nodup ∧
    ("app3" ∈ (MergeBindings
        [("app1", ⟨"app1", [⟨"syslog://a", ⟨"", ""⟩⟩], "h1"⟩)]
        [("app3", ⟨"app3", [⟨"mtls://c", ⟨"c2", "k2"⟩⟩], "h3"⟩)]).map Binding.appID ↔
      "app3" ∈ mapKeys [("app1", ⟨"app1", [⟨"syslog://a", ⟨"", ""⟩⟩], "h1"⟩)] ∨
      "app3" ∈ mapKeys [("app3", ⟨"app3", [⟨"mtls://c", ⟨"c2", "k2"⟩⟩], "h3"⟩)]) := by
  have h := mergeBindings_appIDs_union
    [("app1", ⟨"app1", [⟨"syslog://a", ⟨"", ""⟩⟩], "h1"⟩)]
    [("app3", ⟨"app3", [⟨"mtls://c", ⟨"c2", "k2"⟩⟩], "h3"⟩)]
    (by decide) (by decide)
  exact ⟨h.1, h.2 "app3"⟩

end MergeBindingsTheorems

section StoreTheorems

/-- Claim C6: from construction onward `Store.Get` never returns nil — the
initial snapshot is a non-nil empty sequence, `SetNonMtls(nil)`/`SetMtls(nil)`
install empty maps rather than nil, and every (serialized) sequence of writer
calls keeps the two input maps and the published snapshot non-nil. -/
theorem store_get_never_nil :
    NewStore.get = some [] ∧
    (∀ s : Store, (s.setNonMtls none).nonMtlsBindings = some [] ∧
      (s.setMtls none).mtlsBindings = some []) ∧
    ∀ ops : List StoreOp,
      (NewStore.runOps ops).get.isSome = true ∧
      (NewStore.runOps ops).nonMtlsBindings.isSome = true ∧
      (NewStore.runOps ops).mtlsBindings.isSome = true := by
  refine ⟨rfl, fun s => ⟨rfl, rfl⟩, ?_⟩
  have key : ∀ (ops : List StoreOp) (s : Store),
      s.bindings.isSome = true → s.nonMtlsBindings.isSome = true →
      s.mtlsBindings.isSome = true →
      (s.runOps ops).bindings.isSome = true ∧
      (s.runOps ops).nonMtlsBindings.isSome = true ∧
      (s.runOps ops).mtlsBindings.isSome = true := by
    intro ops
    induction ops with
    | nil => exact fun s h1 h2 h3 => ⟨h1, h2, h3⟩
    | cons op rest ih =>
      intro s h1 h2 h3
      have hstep : (s.applyOp op).bindings.isSome = true ∧
          (s.applyOp op).nonMtlsBindings.isSome = true ∧
          (s.applyOp op).mtlsBindings.isSome = true := by
        cases op with
        | setNonMtls m => cases m <;> exact ⟨h1, rfl, h3⟩
        | setMtls m => cases m <;> exact ⟨h1, h2, rfl⟩
        | merge => exact ⟨rfl, h2, h3⟩
      exact ih (s.applyOp op) hstep.1 hstep.2.1 hstep.2.2
  exact fun ops => key ops NewStore rfl rfl rfl

end StoreTheorems

section PollerTheorems

/-- Claim C2: a poll cycle that fails at any point — transport or decode
error, in either the URL loop (any page) or the certs loop — makes no
`SetNonMtls`/`SetMtls` call: the Store, input maps and published snapshot
alike, is exactly what it was before the cycle, so `Get` still returns the
previously published snapshot. -/
theorem failed_cycle_leaves_store_unchanged :
    (∀ (getUrls : Int → FetchResult ApiResponse) (fuel : Nat) (s s' : PollerState)
      (e : PollErr), pollBindings getUrls fuel s = some (s', some e) →
        s'.store = s.store ∧ s'.store.get = s.store.get) ∧
    (∀ (getCerts : FetchResult CertApiResponse) (s s' : PollerState) (e : PollErr),
      pollMtlsBindings getCerts s = (s', some e) →
        s'.store = s.store ∧ s'.store.get = s.store.get) := by
  constructor
  · intro getUrls fuel s s' e h
    unfold pollBindings at h
    split at h
    · cases h
    · cases h
      exact ⟨rfl, rfl⟩
    · cases h
      exact ⟨rfl, rfl⟩
    · simp at h
  · intro getCerts s s' e h
    cases getCerts with
    | transportErr =>
      cases h
      exact ⟨rfl, rfl⟩
    | decodeErr =>
      cases h
      exact ⟨rfl, rfl⟩
    | ok a => simp [pollMtlsBindings] at h

theorem failed_cycle_leaves_store_unchanged_witness :
    ((pollBindings (fun _ => FetchResult.transportErr) 1 ⟨NewStore, 0, 0, 0⟩).map
        (fun r => r.1.store = NewStore)).getD False ∧
    ((pollMtlsBindings FetchResult.decodeErr ⟨NewStore, 0, 0, 0⟩).1).store = NewStore := by
  constructor
  · exact (failed_cycle_leaves_store_unchanged.1 (fun _ => FetchResult.transportErr) 1
      ⟨NewStore, 0, 0, 0⟩ ⟨NewStore, 1, 0, 0⟩ PollErr.transport rfl).1
  · exact (failed_cycle_leaves_store_unchanged.2 FetchResult.decodeErr
      ⟨NewStore, 0, 0, 0⟩ ⟨NewStore, 0, 0, 0⟩ PollErr.decode rfl).1

end PollerTheorems

section ErrorCounterTheorems

/-- Claim C3 is false on the code: here is a failed fetch — a JSON decode
error, exhibited in both the certs loop and the URL loop — after which
`binding_refresh_error` is exactly what it was (0), not incremented by 1.
Only the transport-error path touches the counter (poller.go:117 and
poller.go:147); the decode-error paths (poller.go:123-126, poller.go:152-156)
return without it. -/
theorem decode_error_does_not_increment_counter :
    (pollMtlsBindings FetchResult.decodeErr ⟨NewStore, 0, 0, 0⟩).2 = some PollErr.decode ∧
    (pollMtlsBindings FetchResult.decodeErr ⟨NewStore, 0, 0, 0⟩).1.errorCount = 0 ∧
    pollBindings (fun _ => FetchResult.decodeErr) 1 ⟨NewStore, 0, 0, 0⟩
      = some (⟨NewStore, 0, 0, 0⟩, some PollErr.decode) :=
  ⟨rfl, rfl, rfl⟩

/-- Claim C3 amended: a fetch that fails with a transport error increments
`binding_refresh_error` by 1, in either loop; a fetch whose response body
fails to decode aborts the cycle but leaves the counter unchanged. -/
theorem refresh_error_counter_semantics :
    (∀ (getUrls : Int → FetchResult ApiResponse) (fuel : Nat) (s s' : PollerState),
      pollBindings getUrls fuel s = some (s', some PollErr.transport) →
        s'.errorCount = s.errorCount + 1) ∧
    (∀ (getUrls : Int → FetchResult ApiResponse) (fuel : Nat) (s s' : PollerState),
      pollBindings getUrls fuel s = some (s', some PollErr.decode) →
        s'.errorCount = s.errorCount) ∧
    (∀ (getCerts : FetchResult CertApiResponse) (s s' : PollerState),
      pollMtlsBindings getCerts s = (s', some PollErr.transport) →
        s'.errorCount = s.errorCount + 1) ∧
    (∀ (getCerts : FetchResult CertApiResponse) (s s' : PollerState),
      pollMtlsBindings getCerts s = (s', some PollErr.decode) →
        s'.errorCount = s.errorCount) := by
  refine ⟨?_, ?_, ?_, ?_⟩
  · intro getUrls fuel s s' h
    unfold pollBindings at h
    split at h
    · cases h
    · cases h
      rfl
    · cases h
    · simp at h
  · intro getUrls fuel s s' h
    unfold pollBindings at h
    split at h
    · cases h
    · cases h
    · cases h
      rfl
    · simp at h
  · intro getCerts s s' h
    cases getCerts with
    | transportErr =>
      cases h
      rfl
    | decodeErr => cases h
    | ok a => simp [pollMtlsBindings] at h
  · intro getCerts s s' h
    cases getCerts with
    | transportErr => cases h
    | decodeErr =>
      cases h
      rfl
    | ok a => simp [pollMtlsBindings] at h

theorem refresh_error_counter_semantics_witness :
    (⟨NewStore, 1, 0, 0⟩ : PollerState).errorCount
        = (⟨NewStore, 0, 0, 0⟩ : PollerState).errorCount + 1 ∧
    (⟨NewStore, 0, 0, 0⟩ : PollerState).errorCount
        = (⟨NewStore, 0, 0, 0⟩ : PollerState).errorCount ∧
    (⟨NewStore, 3, 0, 0⟩ : PollerState).errorCount
        = (⟨NewStore, 2, 0, 0⟩ : PollerState).errorCount + 1 ∧
    (⟨NewStore, 2, 0, 0⟩ : PollerState).errorCount
        = (⟨NewStore, 2, 0, 0⟩ : PollerState).errorCount := by
  refine ⟨?_, ?_, ?_, ?_⟩
  · exact refresh_error_counter_semantics.1 (fun _ => FetchResult.transportErr) 1
      ⟨NewStore, 0, 0, 0⟩ ⟨NewStore, 1, 0, 0⟩ rfl
  · exact refresh_error_counter_semantics.2.1 (fun _ => FetchResult.decodeErr) 1
      ⟨NewStore, 0, 0, 0⟩ ⟨NewStore, 0, 0, 0⟩ rfl
  · exact refresh_error_counter_semantics.2.2.1 FetchResult.transportErr
      ⟨NewStore, 2, 0, 0⟩ ⟨NewStore, 3, 0, 0⟩ rfl
  · exact refresh_error_counter_semantics.2.2.2 FetchResult.decodeErr
      ⟨NewStore, 2, 0, 0⟩ ⟨NewStore, 2, 0, 0⟩ rfl

/-- Claim C1 (code bug in pollMtlsBindings, poller.go:143-161): on a
successful `GetCerts` whose body decodes to a non-empty BindingsMap (the same
shape the repository's own poller test feeds in), the cycle nevertheless
passes the still-empty local `bindings` map to `SetMtls` and sets
`last_mtls_binding_refresh_count` to 0 — the decoded `aResp.Bindings` is
discarded. -/
theorem pollMtls_discards_decoded_bindings :
    ((pollMtlsBindings (FetchResult.ok ⟨[("app-id-1", ⟨"app-id-1",
        [⟨"drain-3", ⟨"a cert", "a key"⟩⟩], ""⟩)]⟩) ⟨NewStore, 0, 0, 0⟩).1).store.mtlsBindings
      = some [] ∧
    ((pollMtlsBindings (FetchResult.ok ⟨[("app-id-1", ⟨"app-id-1",
        [⟨"drain-3", ⟨"a cert", "a key"⟩⟩], ""⟩)]⟩) ⟨NewStore, 0, 0, 0⟩).1).lastMtlsBindingCount
      = 0 ∧
    (CertApiResponse.mk [("app-id-1", ⟨"app-id-1",
        [⟨"drain-3", ⟨"a cert", "a key"⟩⟩], ""⟩)]).bindings.length = 1 :=
  ⟨rfl, rfl, rfl⟩

end ErrorCounterTheorems

section ProviderClientTheorems

theorem goSprintfAux_percent_s (rest : List Char) (arg : String) (args : List String) :
    goSprintfAux ('%' :: 's' :: rest) (arg :: args) = arg.data ++ goSprintfAux rest args := rfl

theorem goSprintfAux_cons_ne (c : Char) (rest : List Char) (args : List String)
    (h : c ≠ '%') : goSprintfAux (c :: rest) args = c :: goSprintfAux rest args := by
  cases rest with
  | nil => cases args <;> simp [goSprintfAux, h]
  | cons c2 rest2 => cases args <;> simp [goSprintfAux, h]

theorem goSprintfAux_no_percent (l rest : List Char) (args : List String)
    (h : '%' ∉ l) : goSprintfAux (l ++ rest) args = l ++ goSprintfAux rest args := by
  induction l with
  | nil => rfl
  | cons c l' ih =>
    simp only [List.mem_cons] at h
    push_neg at h
    rw [List.cons_append, goSprintfAux_cons_ne c _ _ (fun he => h.1 he.symm), ih h.2]
    rfl

/-- Evaluating the certs template: the two `%s` verbs take the address and the
formatted timestamp, the middle of the format passes through verbatim. -/
theorem goSprintf_certs_template (addr us : String) :
    goSprintf sDCertspathTemplate [addr, us]
      = addr ++ "/internal/v4/syslog_drain_certs?updated_since=" ++ us := by
  show (⟨goSprintfAux ("%s/internal/v4/syslog_drain_certs?updated_since=%s" : String).data
    [addr, us]⟩ : String) = _
  have hdata : ("%s/internal/v4/syslog_drain_certs?updated_since=%s" : String).data
      = '%' :: 's' :: (("/internal/v4/syslog_drain_certs?updated_since=" : String).data
          ++ ['%', 's']) := rfl
  rw [hdata, goSprintfAux_percent_s,
    goSprintfAux_no_percent _ _ _ (by decide), goSprintfAux_percent_s]
  cases addr with
  | mk la =>
    cases us with
    | mk lu =>
      apply String.ext
      show _ = (String.mk la ++ "/internal/v4/syslog_drain_certs?updated_since="
        ++ String.mk lu).data
      simp [goSprintfAux]

/-- Claim C7 is false on the code: with the transport delivering a response
whose status is 500 (not 2xx), `GetUrls` and `GetCerts` hand that response
back as a success, with no error; the client never inspects the status code
(client.go just returns `w.Client.Get(...)`, and Go's `http.Client.Get` does
not error on non-2xx statuses). -/
theorem non2xx_returned_as_success :
    (ApiClient.mk (fun _ => Except.ok ⟨500, "oops"⟩) "https://capi.example" 1000).GetUrls 0
      = Except.ok ⟨500, "oops"⟩ ∧
    (ApiClient.mk (fun _ => Except.ok ⟨500, "oops"⟩) "https://capi.example" 1000).GetCerts
        "2024-01-02T03:04:05Z"
      = Except.ok ⟨500, "oops"⟩ ∧
    is2xx 500 = false :=
  ⟨rfl, rfl, rfl⟩

/-- Claim C7 amended: the provider client performs no status-code check —
whenever the underlying GET yields a response, `GetUrls` and `GetCerts` return
it unchanged as a success, even when its status code is not 2xx.  (Status-code
errors of the form `unexpected http response …: {code}` are raised only by the
downstream Cache Client, not by this provider client.) -/
theorem provider_client_no_status_check (get' : String → Except String HTTPResponse)
    (addr : String) (batchSize nextID : Int) (updatedSince : String) (resp : HTTPResponse)
    (hresp : ∀ u, get' u = Except.ok resp) (_hstatus : is2xx resp.statusCode = false) :
    (ApiClient.mk get' addr batchSize).GetUrls nextID = Except.ok resp ∧
    (ApiClient.mk get' addr batchSize).GetCerts updatedSince = Except.ok resp :=
  ⟨hresp _, hresp _⟩

theorem provider_client_no_status_check_witness :
    (ApiClient.mk (fun _ => Except.ok ⟨503, "unavailable"⟩) "https://api" 50).GetUrls 7
      = Except.ok ⟨503, "unavailable"⟩ ∧
    (ApiClient.mk (fun _ => Except.ok ⟨503, "unavailable"⟩) "https://api" 50).GetCerts "ts"
      = Except.ok ⟨503, "unavailable"⟩ :=
  provider_client_no_status_check (fun _ => Except.ok ⟨503, "unavailable"⟩)
    "https://api" 50 7 "ts" ⟨503, "unavailable"⟩ (fun _ => rfl) rfl

/-- Claim C8 is false on the code: at a concrete address and timestamp, the
URL `GetCerts` requests is the `syslog_drain_certs` path with an
`updated_since` query — not the claimed `/internal/v4/mtls_syslog_drain_urls`
path. -/
theorem getCerts_path_counterexample :
    (ApiClient.mk (fun _ => Except.error "unused") "https://capi.example" 1000).getCertsUrl
        "2024-01-02T03:04:05Z"
      = "https://capi.example/internal/v4/syslog_drain_certs?updated_since=2024-01-02T03:04:05Z" ∧
    (ApiClient.mk (fun _ => Except.error "unused") "https://capi.example" 1000).getCertsUrl
        "2024-01-02T03:04:05Z"
      ≠ "https://capi.example" ++ "/internal/v4/mtls_syslog_drain_urls" := by
  exact ⟨rfl, by decide⟩

/-- Claim C8 amended: `GetCerts` issues its GET request to
`{addr}/internal/v4/syslog_drain_certs?updated_since={RFC3339 timestamp}`. -/
theorem getCerts_requests_certs_path (w : ApiClient) (updatedSince : String) :
    w.GetCerts updatedSince
      = w.get (w.addr ++ "/internal/v4/syslog_drain_certs?updated_since=" ++ updatedSince) := by
  show w.get (w.getCertsUrl updatedSince) = _
  rw [ApiClient.getCertsUrl, goSprintf_certs_template]

end ProviderClientTheorems

section AggregateTheorems

/-- Claim C9 is false on the code: with the statically configured URL
`syslog://x?include-metrics-deprecated=true`, `FetchBindings` emits a
SyslogBinding whose Type is `BINDING_TYPE_LOG` (the struct's zero value — the
static branch never inspects the URL), whereas the include-metrics-deprecated
rule — `parseBindings`, which the cache branch applies — classifies that very
URL as AGGREGATE. -/
theorem aggregate_static_type_counterexample :
    (AggregateDrainFetcher.mk ["syslog://x?include-metrics-deprecated=true"] none).fetchBindings
      = Except.ok [⟨"", "", ⟨"syslog://x?include-metrics-deprecated=true", ⟨"", ""⟩⟩,
          BindingType.LOG⟩] ∧
    parseBindings ["syslog://x?include-metrics-deprecated=true"]
      = [⟨"", "", ⟨"syslog://x?include-metrics-deprecated=true", ⟨"", ""⟩⟩,
          BindingType.AGGREGATE⟩] :=
  ⟨rfl, rfl⟩

/-- Claim C9 amended: with statically configured aggregate URLs,
`FetchBindings` returns one SyslogBinding per configured URL, in order, with
empty appId and the URL as its drain — but with `Type` left at the Go zero
value `BINDING_TYPE_LOG` regardless of the URL's query parameters; the
include-metrics-deprecated rule is applied only in the cache-fetcher branch
(`parseBindings`). -/
theorem aggregate_static_branch (urls : List String)
    (cf : Option (Except String (List String))) (h : urls ≠ []) :
    (AggregateDrainFetcher.mk urls cf).fetchBindings
      = Except.ok (urls.map (fun b =>
          { appId := "", hostname := "", drain := ⟨b, ⟨"", ""⟩⟩,
            type := BindingType.LOG })) := by
  unfold AggregateDrainFetcher.fetchBindings
  rw [if_pos]
  · rfl
  · simpa using h

theorem aggregate_static_branch_witness :
    (AggregateDrainFetcher.mk ["syslog://a", "https://b?drain-type=metrics"] none).fetchBindings
      = Except.ok
          [⟨"", "", ⟨"syslog://a", ⟨"", ""⟩⟩, BindingType.LOG⟩,
           ⟨"", "", ⟨"https://b?drain-type=metrics", ⟨"", ""⟩⟩, BindingType.LOG⟩] :=
  aggregate_static_branch ["syslog://a", "https://b?drain-type=metrics"] none (by decide)

/-- Claim C10: `AggregateStore.Get` always returns a sequence of exactly one
Binding whose AppID is empty and whose drains are the configured URLs in
order (each with an empty credential); with zero configured URLs it still
returns that single Binding, never an empty sequence. -/
theorem aggregate_store_get_single (urls : List String) :
    (AggregateStore.mk urls).get.length = 1 ∧
    ∀ b ∈ (AggregateStore.mk urls).get,
      b.appID = "" ∧ b.drains.map Drain.url = urls := by
  refine ⟨rfl, ?_⟩
  intro b hb
  have hbe : b = Binding.mk "" (urls.map (fun d => Drain.mk d ⟨"", ""⟩)) "" := by
    simpa [AggregateStore.get] using hb
  subst hbe
  refine ⟨rfl, ?_⟩
  rw [List.map_map]
  exact List.map_id urls

theorem aggregate_store_get_single_witness :
    (AggregateStore.mk []).get.length = 1 ∧
    Binding.mk "" [] "" ∈ (AggregateStore.mk ([] : List String)).get ∧
    (Binding.mk "" [] "").appID = "" ∧
    (Binding.mk "" [] "").drains.map Drain.url = ([] : List String) := by
  have h := aggregate_store_get_single []
  have hm : Binding.mk "" [] "" ∈ (AggregateStore.mk ([] : List String)).get := by
    simp [AggregateStore.get]
  exact ⟨h.1, hm, h.2 _ hm⟩

end AggregateTheorems
